import Mathlib

/-! playground-config: `config.LoadDirect`

A shallow embedding of `src/config.go`.  `LoadDirect` talks to the operating
system (`filepath.Abs`, `os.Stat`, `os.Open`, `ioutil.ReadAll`), to
`encoding/json` and to the logging collaborator `playground/log`.  None of
these lives in the repository, so they are the fields of a `World` (their
answers) and the constructors of `Event` (the calls made to them, in order).
A run of `LoadDirect` is the list of events it produced, the way it ended and
the destination it leaves behind.

Modelling conventions

* Go `string` values that are text (paths, messages, tags) are `String`;
  file content and its lines are `List UInt8`, so `len` is the byte length.
* Go `int`/`int64` are `Int`; `int(serr.Offset)` is the identity (64-bit
  target) and `seen + len(line) + 1` never exceeds the content length plus
  one, so no wrap-around is modelled.
* A Go `error` value is `Option GoError` (`none` is `nil`); a pointer result
  (`os.FileInfo`, `*os.File`) is an `Option` as well.
-/

namespace Config

/-- File content: a Go byte string. -/
abbrev Bytes := List UInt8

/-- The byte of the separator `"\n"`. -/
def newline : UInt8 := 10

/-- Dynamic type of a non-nil Go `error`, as far as `LoadDirect` inspects it:
the type assertion `err.(*json.SyntaxError)` succeeds on `jsonSyntax` only and
then reads the field `Offset`. -/
inductive GoError where
  | jsonSyntax (offset : Int)
  | other (text : String)
  deriving DecidableEq, Repr

/-- The part of `os.FileInfo` that is read: `IsDir()`. -/
structure FileInfo where
  isDir : Bool
  deriving DecidableEq, Repr

/-- An open `*os.File`, named by a number. -/
abbrev File := Nat

/-- Answers of the collaborators of `LoadDirect`. -/
structure World (Dest : Type) where
  /-- The call `filepath.Abs(configFile)`: resolved path and error. -/
  abs : String → String × Option GoError
  /-- The call `os.Stat(configFile)`. -/
  stat : String → Option FileInfo × Option GoError
  /-- The call `os.IsNotExist(err)`. -/
  isNotExist : GoError → Bool
  /-- The call `os.Open(configFile)`. -/
  openFile : String → Option File × Option GoError
  /-- The call `ioutil.ReadAll(file)`. -/
  readAll : Option File → Bytes × Option GoError
  /-- The call `json.Unmarshal(content, dest)`: the destination afterwards and
  the error. -/
  unmarshal : Bytes → Dest → Dest × Option GoError

/-- Calls made by `LoadDirect`, in program order. -/
inductive Event where
  | absCall (path : String)
  | statCall (path : String)
  | openCall (path : String)
  | readAllCall (file : Option File)
  | unmarshalCall (content : Bytes)
  | println (line : Bytes)
  | logError (tag msg : String) (args : List (Option GoError))
  | logStatus (tag msg : String)
  deriving DecidableEq, Repr

/-- How a call of `LoadDirect` ends: it returns, or `panic(msg)`. -/
inductive Outcome where
  | returned
  | panicked (msg : String)
  deriving DecidableEq, Repr

/-- A finished call of `LoadDirect`. -/
structure Run (Dest : Type) where
  events : List Event
  outcome : Outcome
  dest : Dest

/-- The function `strings.Split(s, "\n")`, with the line being collected passed
along: one more element than there are newline bytes, never empty. -/
def splitFrom : Bytes → Bytes → List Bytes
  | cur, [] => [cur]
  | cur, b :: rest =>
    if b = newline then cur :: splitFrom [] rest else splitFrom (cur ++ [b]) rest

/-- The function `strings.Split(s, "\n")`. -/
def splitLines (s : Bytes) : List Bytes := splitFrom [] s

/-- A line selected by the loop of `LoadDirect`: the index `i`, the line and the
value of `seen` when it was selected. -/
structure Hit where
  index : Nat
  line : Bytes
  seen : Int
  deriving DecidableEq, Repr

/-- The loop `for i, line := range lines` of `LoadDirect` (lines 72-80), started
at index `i` with `seen` bytes accounted for; `none` when the loop runs off the
end of `lines`. -/
def lineSearch (target : Int) : List Bytes → Nat → Int → Option Hit
  | [], _, _ => none
  | line :: rest, i, seen =>
    if target ≤ seen + (line.length : Int) + 1 then
      some ⟨i, line, seen⟩
    else
      lineSearch target rest (i + 1) (seen + (line.length : Int) + 1)

/-- The function `strconv.Itoa`. -/
def itoa (n : Int) : String := toString n

/-- The message built on line 75. -/
def parseErrorMsg (line : Int) (column : Int) : String :=
  "JSON parse error at line " ++ itoa line ++ ", column " ++ itoa column

/-- The message built on line 82. -/
def unmarshalMsg : String := "loading config failed on unmarshal "

/-- The pair `log.Error("config.init", msg, args...)` then `panic(msg)` that
ends every failing path. -/
def fatal {Dest : Type} (before : List Event) (msg : String)
    (args : List (Option GoError)) (dest : Dest) : Run Dest :=
  { events := before ++ [Event.logError "config.init" msg args]
    outcome := Outcome.panicked msg
    dest := dest }

/-- The body of `if err != nil` after `json.Unmarshal` (lines 66-85). -/
def unmarshalFailure {Dest : Type} (before : List Event) (content : Bytes)
    (err : GoError) (dest : Dest) : Run Dest :=
  match err with
  | GoError.jsonSyntax offset =>
    match lineSearch offset (splitLines content) 0 0 with
    | some hit =>
      fatal (before ++ [Event.println hit.line])
        (parseErrorMsg ((hit.index : Int) + 1) (offset - hit.seen)) [] dest
    | none => fatal before unmarshalMsg [some err] dest
  | GoError.other _ => fatal before unmarshalMsg [some err] dest

/-- The condition of line 46 on the two results of `os.Stat`:
`(err != nil && !os.IsNotExist(err)) || (stat != nil && stat.IsDir())`. -/
def statRejects {Dest : Type} (w : World Dest) (st : Option FileInfo × Option GoError) :
    Bool :=
  (match st.2 with
    | some e => !w.isNotExist e
    | none => false)
  || (match st.1 with
      | some info => info.isDir
      | none => false)

/-- The function `LoadDirect(configFile, dest)` of `config.go`. -/
def LoadDirect {Dest : Type} (w : World Dest) (configFile : String) (dest : Dest) :
    Run Dest :=
  if configFile = "" then
    fatal [] "-config is required" [] dest
  else
    let t1 := [Event.absCall configFile]
    match w.abs configFile with
    | (resolved, some _) =>
      fatal t1 ("-config value '" ++ resolved ++ "' does not resolve") [] dest
    | (resolved, none) =>
      let t2 := t1 ++ [Event.statCall resolved]
      let st := w.stat resolved
      if statRejects w st then
        fatal t2 ("-config value '" ++ resolved ++ "' does not stat or is a directory")
          [st.2] dest
      else
        let t3 := t2 ++ [Event.openCall resolved]
        match w.openFile resolved with
        | (_, some e) =>
          fatal t3 ("failure opening -config file '" ++ resolved ++ "'") [some e] dest
        | (file, none) =>
          let t4 := t3 ++ [Event.readAllCall file]
          match w.readAll file with
          | (_, some e) =>
            fatal t4 ("failure reading -config file '" ++ resolved ++ "'") [some e] dest
          | (content, none) =>
            let t5 := t4 ++ [Event.unmarshalCall content]
            match w.unmarshal content dest with
            | (dest1, some e) => unmarshalFailure t5 content e dest1
            | (dest1, none) =>
              { events := t5 ++ [Event.logStatus "config.init"
                  ("Config loaded from '" ++ resolved ++ "'.")]
                outcome := Outcome.returned
                dest := dest1 }

/-- The function `Load(dest)`: `LoadDirect` at the process-wide `configPath`. -/
def Load {Dest : Type} (w : World Dest) (configPath : String) (dest : Dest) : Run Dest :=
  LoadDirect w configPath dest

/-! ## Vocabulary of the specification -/

/-- Number of newline bytes of `content` strictly before byte position `pos`. -/
def newlinesBefore (content : Bytes) (pos : Int) : Nat :=
  (content.take pos.toNat).count newline

/-- Sum, over the first `k` lines, of (length of the line + 1). -/
def precedingLength (lines : List Bytes) (k : Nat) : Int :=
  ((lines.take k).map (fun l => (l.length : Int) + 1)).sum

/-- The logging calls among the events of a run. -/
def logCalls (events : List Event) : List Event :=
  events.filter (fun e =>
    match e with
    | Event.logError _ _ _ => true
    | Event.logStatus _ _ => true
    | _ => false)

/-- Events that touch the filesystem or the parser: path resolution, stat,
open, read, unmarshal. -/
def Event.isIO : Event → Bool
  | Event.absCall _ => true
  | Event.statCall _ => true
  | Event.openCall _ => true
  | Event.readAllCall _ => true
  | Event.unmarshalCall _ => true
  | _ => false

/-- Events that open, read or parse the file. -/
def Event.usesContent : Event → Bool
  | Event.openCall _ => true
  | Event.readAllCall _ => true
  | Event.unmarshalCall _ => true
  | _ => false

/-- The path is non-empty, resolves to `resolved`, passes the stat check, opens
as `file` and is read in full as `content`: the run gets to `json.Unmarshal`
with `content`. -/
def ReadsContent {Dest : Type} (w : World Dest) (path resolved : String)
    (file : Option File) (content : Bytes) : Prop :=
  path ≠ "" ∧ w.abs path = (resolved, none) ∧ statRejects w (w.stat resolved) = false ∧
    w.openFile resolved = (file, none) ∧ w.readAll file = (content, none)

/-- The events of a run up to and including the call of `json.Unmarshal`. -/
def readEvents (path resolved : String) (file : Option File) (content : Bytes) :
    List Event :=
  [Event.absCall path, Event.statCall resolved, Event.openCall resolved,
    Event.readAllCall file, Event.unmarshalCall content]

/-- A world in which every path resolves to itself, stats as a regular
file, opens, and reads as `content`; `json.Unmarshal` answers `err`. -/
def fileWorld (content : Bytes) (err : Option GoError) : World Unit :=
  { abs := fun p => (p, none)
    stat := fun _ => (some ⟨false⟩, none)
    isNotExist := fun _ => false
    openFile := fun _ => (some 3, none)
    readAll := fun _ => (content, none)
    unmarshal := fun _ d => (d, err) }

/-- A world in which every path resolves to itself and stats as `st`;
nothing opens. -/
def statWorld (st : Option FileInfo × Option GoError) : World Unit :=
  { abs := fun p => (p, none)
    stat := fun _ => st
    isNotExist := fun e => decide (e = GoError.other "no such file or directory")
    openFile := fun _ => (none, some (GoError.other "no such file or directory"))
    readAll := fun _ => ([], none)
    unmarshal := fun _ d => (d, none) }

/-- The content `{"Port": }`: ten bytes on one line. -/
def portContent : Bytes := [123, 34, 80, 111, 114, 116, 34, 58, 32, 125]

/-- The content `a`, newline, `b`: two lines; byte 2 is the first byte of the
second line. -/
def twoLines : Bytes := [97, 10, 98]

/-- The five bytes `"a`, newline, `b"`: a JSON string literal with a raw newline
inside, two lines.  `encoding/json` rejects the newline, the third byte it
reads, so the syntax error carries offset 3; byte 3 is `b`, the first byte of
the second line. -/
def quotedTwoLines : Bytes := [34, 97, 10, 98, 34]

/-- Value of a string of decimal digits, most significant first. -/
def digitsValue (cs : List Char) : Nat :=
  cs.foldl (fun a c => 10 * a + (c.toNat - 48)) 0

/-- A failing run logged its payload once, as the last thing it did: the events
end with `log.Error("config.init", msg, ...)` and hold no other logging call. -/
def LoggedThenRaised {Dest : Type} (r : Run Dest) (msg : String) : Prop :=
  ∃ before args, r.events = before ++ [Event.logError "config.init" msg args] ∧
    logCalls before = [] ∧
    logCalls r.events = [Event.logError "config.init" msg args]

/-- The stat of the path reports a directory. -/
def StatsAsDirectory (st : Option FileInfo × Option GoError) : Prop :=
  ∃ info, st.1 = some info ∧ info.isDir = true

/-- The stat of the path fails with an error other than does-not-exist. -/
def StatsWithOtherError {Dest : Type} (w : World Dest)
    (st : Option FileInfo × Option GoError) : Prop :=
  ∃ e, st.2 = some e ∧ w.isNotExist e = false

/-- The conditions under which the specification has `LoadDirect` return: the
path is non-empty, resolves, does not stat as a directory or with an error other
than does-not-exist, opens, is read in full without error, and its content
unmarshals into the destination without error. -/
def LoadSucceeds {Dest : Type} (w : World Dest) (path : String) (dest : Dest) : Prop :=
  path ≠ "" ∧ (w.abs path).2 = none ∧
    ¬ StatsAsDirectory (w.stat (w.abs path).1) ∧
    ¬ StatsWithOtherError w (w.stat (w.abs path).1) ∧
    (w.openFile (w.abs path).1).2 = none ∧
    (w.readAll (w.openFile (w.abs path).1).1).2 = none ∧
    (w.unmarshal (w.readAll (w.openFile (w.abs path).1).1).1 dest).2 = none

/-! ## Reaching `json.Unmarshal` -/

theorem readsContent_fileWorld (content : Bytes) (err : Option GoError) :
    ReadsContent (fileWorld content err) "c.json" "c.json" (some 3) content := by
  refine ⟨by decide, rfl, rfl, rfl, rfl⟩

/-- Once the content is read, the run is decided by the answer of
`json.Unmarshal`. -/
theorem LoadDirect_of_readsContent {Dest : Type} (w : World Dest) (path resolved : String)
    (file : Option File) (content : Bytes) (dest : Dest)
    (h : ReadsContent w path resolved file content) :
    LoadDirect w path dest =
      match w.unmarshal content dest with
      | (dest1, some e) =>
        unmarshalFailure (readEvents path resolved file content) content e dest1
      | (dest1, none) =>
        { events := readEvents path resolved file content ++
            [Event.logStatus "config.init" ("Config loaded from '" ++ resolved ++ "'.")]
          outcome := Outcome.returned
          dest := dest1 } := by
  obtain ⟨hp, habs, hstat, hopen, hread⟩ := h
  unfold LoadDirect
  rw [if_neg hp]
  simp only [habs, hstat, hopen, hread]
  rfl

/-! ## The line search -/

theorem precedingLength_zero (lines : List Bytes) : precedingLength lines 0 = 0 := by
  simp [precedingLength]

theorem precedingLength_cons_succ (line : Bytes) (rest : List Bytes) (k : Nat) :
    precedingLength (line :: rest) (k + 1) =
      (line.length : Int) + 1 + precedingLength rest k := by
  simp [precedingLength]

/-- A selected line sits at its index in `lines`, `seen` is the summed length of
the lines before it, and the target is within its reach. -/
theorem lineSearch_some (target : Int) :
    ∀ (lines : List Bytes) (i : Nat) (seen : Int) (hit : Hit),
      lineSearch target lines i seen = some hit →
      ∃ k, k < lines.length ∧ hit.index = i + k ∧ lines[k]? = some hit.line ∧
        hit.seen = seen + precedingLength lines k ∧
        target ≤ hit.seen + (hit.line.length : Int) + 1 := by
  intro lines
  induction lines with
  | nil => intro i seen hit h; simp [lineSearch] at h
  | cons line rest ih =>
    intro i seen hit h
    unfold lineSearch at h
    by_cases hc : target ≤ seen + (line.length : Int) + 1
    · rw [if_pos hc] at h
      cases h
      exact ⟨0, by simp, by simp, by simp, by simp [precedingLength_zero], hc⟩
    · rw [if_neg hc] at h
      obtain ⟨k, hk, hidx, hget, hseen, hle⟩ := ih (i + 1) _ hit h
      refine ⟨k + 1, by simpa using hk, by omega, by simpa using hget, ?_, hle⟩
      rw [hseen, precedingLength_cons_succ]
      ring

/-- On the lines of a content the search selects a line as soon as the target
is at most the length of the content plus one, and the index of the line is the
number of newline bytes before position `target - 1`. -/
theorem lineSearch_splitFrom (target : Int) :
    ∀ (s cur : Bytes) (i : Nat) (seen : Int),
      target ≤ seen + (cur.length : Int) + (s.length : Int) + 1 →
      ∃ hit, lineSearch target (splitFrom cur s) i seen = some hit ∧
        hit.index =
          i + (s.take (target - seen - (cur.length : Int) - 1).toNat).count newline := by
  intro s
  induction s with
  | nil =>
    intro cur i seen h
    refine ⟨⟨i, cur, seen⟩, ?_, by simp⟩
    simp only [splitFrom, lineSearch]
    rw [if_pos (by simpa using h)]
  | cons b rest ih =>
    intro cur i seen h
    by_cases hb : b = newline
    · subst hb
      simp only [splitFrom, if_true]
      unfold lineSearch
      by_cases hc : target ≤ seen + (cur.length : Int) + 1
      · rw [if_pos hc]
        refine ⟨⟨i, cur, seen⟩, rfl, ?_⟩
        have h0 : (target - seen - (cur.length : Int) - 1).toNat = 0 := by omega
        simp [h0]
      · rw [if_neg hc]
        have hlen : ((newline :: rest).length : Int) = (rest.length : Int) + 1 := by simp
        obtain ⟨hit, hs, hidx⟩ := ih [] (i + 1) (seen + (cur.length : Int) + 1)
          (by simp only [List.length_nil, Nat.cast_zero]; omega)
        refine ⟨hit, hs, ?_⟩
        rw [hidx]
        obtain ⟨n, hn⟩ : ∃ n : Nat,
            (target - seen - (cur.length : Int) - 1).toNat = n + 1 :=
          ⟨(target - seen - (cur.length : Int) - 1).toNat - 1, by omega⟩
        have hn2 : (target - (seen + (cur.length : Int) + 1) -
            (([] : Bytes).length : Int) - 1).toNat = n := by
          simp only [List.length_nil, Nat.cast_zero]; omega
        rw [hn, hn2, List.take_succ_cons, List.count_cons_self]
        omega
    · simp only [splitFrom, if_neg hb]
      have hlen : ((b :: rest).length : Int) = (rest.length : Int) + 1 := by simp
      obtain ⟨hit, hs, hidx⟩ := ih (cur ++ [b]) i seen
        (by simp only [List.length_append, List.length_singleton, Nat.cast_add,
              Nat.cast_one]; omega)
      refine ⟨hit, hs, ?_⟩
      rw [hidx]
      congr 1
      have hcur : ((cur ++ [b]).length : Int) = (cur.length : Int) + 1 := by simp
      rw [hcur]
      rcases Nat.eq_zero_or_pos (target - seen - (cur.length : Int) - 1).toNat with h0 | hpos
      · have h1 : (target - seen - ((cur.length : Int) + 1) - 1).toNat = 0 := by omega
        simp [h0, h1]
      · obtain ⟨n, hn⟩ : ∃ n : Nat,
            (target - seen - (cur.length : Int) - 1).toNat = n + 1 :=
          ⟨(target - seen - (cur.length : Int) - 1).toNat - 1, by omega⟩
        have hn2 : (target - seen - ((cur.length : Int) + 1) - 1).toNat = n := by omega
        rw [hn, hn2, List.take_succ_cons, List.count_cons_of_ne (Ne.symm hb)]

/-- The search over the lines of `content`, from the start. -/
theorem lineSearch_splitLines (content : Bytes) (target : Int)
    (h : target ≤ (content.length : Int) + 1) :
    ∃ hit, lineSearch target (splitLines content) 0 0 = some hit ∧
      hit.index = newlinesBefore content (target - 1) := by
  obtain ⟨hit, hs, hidx⟩ := lineSearch_splitFrom target content [] 0 0
    (by simpa using h)
  refine ⟨hit, hs, ?_⟩
  rw [hidx, newlinesBefore]
  simp

/-! ## Rendering of the messages -/

theorem digitChar_spec (k : Nat) (h : k < 10) :
    (Nat.digitChar k).toNat = 48 + k := by
  interval_cases k <;> rfl

theorem toDigitsCore_spec :
    ∀ (fuel n : Nat), n < fuel →
      ∃ xs : List Char, xs ≠ [] ∧ (∀ c ∈ xs, 48 ≤ c.toNat) ∧ digitsValue xs = n ∧
        ∀ ds, Nat.toDigitsCore 10 fuel n ds = xs ++ ds := by
  intro fuel
  induction fuel with
  | zero => intro n h; omega
  | succ f ih =>
    intro n h
    have hd := digitChar_spec (n % 10) (Nat.mod_lt _ (by decide))
    by_cases hz : n / 10 = 0
    · refine ⟨[Nat.digitChar (n % 10)], by simp, ?_, ?_, ?_⟩
      · intro c hc
        simp only [List.mem_singleton] at hc
        subst hc; omega
      · simp only [digitsValue, List.foldl_cons, List.foldl_nil]
        omega
      · intro ds
        simp [Nat.toDigitsCore, hz]
    · obtain ⟨xs, hne, hdig, hval, happ⟩ := ih (n / 10) (by omega)
      refine ⟨xs ++ [Nat.digitChar (n % 10)], by simp, ?_, ?_, ?_⟩
      · intro c hc
        rcases List.mem_append.mp hc with hc | hc
        · exact hdig c hc
        · simp only [List.mem_singleton] at hc
          subst hc; omega
      · unfold digitsValue at hval ⊢
        rw [List.foldl_append, hval]
        simp only [List.foldl_cons, List.foldl_nil]
        omega
      · intro ds
        simp [Nat.toDigitsCore, hz, happ]

theorem toDigits_spec (n : Nat) :
    Nat.toDigits 10 n ≠ [] ∧ (∀ c ∈ Nat.toDigits 10 n, 48 ≤ c.toNat) ∧
      digitsValue (Nat.toDigits 10 n) = n := by
  obtain ⟨xs, hne, hdig, hval, happ⟩ := toDigitsCore_spec (n + 1) n (by omega)
  have : Nat.toDigits 10 n = xs := by simp [Nat.toDigits, happ]
  rw [this]
  exact ⟨hne, hdig, hval⟩

theorem itoa_ofNat (m : Nat) : (itoa (Int.ofNat m)).data = Nat.toDigits 10 m := rfl

theorem itoa_negSucc (m : Nat) :
    (itoa (Int.negSucc m)).data = '-' :: Nat.toDigits 10 (m + 1) := rfl

theorem itoa_no_comma (n : Int) : ',' ∉ (itoa n).data := by
  intro h
  cases n with
  | ofNat m =>
    rw [itoa_ofNat] at h
    have := (toDigits_spec m).2.1 _ h
    revert this; decide
  | negSucc m =>
    rw [itoa_negSucc] at h
    rcases List.mem_cons.mp h with h | h
    · revert h; decide
    · have := (toDigits_spec (m + 1)).2.1 _ h
      revert this; decide

theorem itoa_injective (a b : Int) (h : (itoa a).data = (itoa b).data) : a = b := by
  cases a with
  | ofNat m =>
    cases b with
    | ofNat k =>
      rw [itoa_ofNat, itoa_ofNat] at h
      have := congrArg digitsValue h
      rw [(toDigits_spec m).2.2, (toDigits_spec k).2.2] at this
      rw [this]
    | negSucc k =>
      rw [itoa_ofNat, itoa_negSucc] at h
      have hm : '-' ∈ Nat.toDigits 10 m := by rw [h]; simp
      have := (toDigits_spec m).2.1 _ hm
      exact absurd this (by decide)
  | negSucc m =>
    cases b with
    | ofNat k =>
      rw [itoa_ofNat, itoa_negSucc] at h
      have hm : '-' ∈ Nat.toDigits 10 k := by rw [← h]; simp
      have := (toDigits_spec k).2.1 _ hm
      exact absurd this (by decide)
    | negSucc k =>
      rw [itoa_negSucc, itoa_negSucc] at h
      have := congrArg digitsValue (List.cons.inj h).2
      rw [(toDigits_spec (m + 1)).2.2, (toDigits_spec (k + 1)).2.2] at this
      have : m = k := by omega
      rw [this]

theorem append_sep_inj {α : Type} (a : α) :
    ∀ (xs xs2 ys ys2 : List α), a ∉ xs → a ∉ xs2 →
      xs ++ a :: ys = xs2 ++ a :: ys2 → xs = xs2 ∧ ys = ys2 := by
  intro xs
  induction xs with
  | nil =>
    intro xs2 ys ys2 _ h2 h
    cases xs2 with
    | nil => simpa using h
    | cons x t =>
      simp only [List.nil_append, List.cons_append, List.cons.injEq] at h
      exact absurd (by simp [h.1]) h2
  | cons x t ih =>
    intro xs2 ys ys2 h1 h2 h
    cases xs2 with
    | nil =>
      simp only [List.nil_append, List.cons_append, List.cons.injEq] at h
      exact absurd (by simp [h.1]) h1
    | cons x2 t2 =>
      simp only [List.cons_append, List.cons.injEq] at h
      obtain ⟨r1, r2⟩ := ih t2 ys ys2 (fun hh => h1 (List.mem_cons_of_mem _ hh))
        (fun hh => h2 (List.mem_cons_of_mem _ hh)) h.2
      exact ⟨by rw [h.1, r1], r2⟩

theorem parseErrorMsg_data (L C : Int) :
    (parseErrorMsg L C).data =
      "JSON parse error at line ".data ++ ((itoa L).data ++ ',' :: (" column ".data ++ (itoa C).data)) := by
  simp [parseErrorMsg, String.data_append]

theorem parseErrorMsg_injective (L C L2 C2 : Int)
    (h : parseErrorMsg L C = parseErrorMsg L2 C2) : L = L2 ∧ C = C2 := by
  have hd := congrArg String.data h
  rw [parseErrorMsg_data, parseErrorMsg_data] at hd
  have h1 := List.append_cancel_left hd
  obtain ⟨hL, hrest⟩ := append_sep_inj ',' _ _ _ _ (itoa_no_comma L) (itoa_no_comma L2) h1
  exact ⟨itoa_injective _ _ hL, itoa_injective _ _ (List.append_cancel_left hrest)⟩

theorem parseErrorMsg_ne_unmarshalMsg (L C : Int) :
    parseErrorMsg L C ≠ unmarshalMsg := by
  intro h
  have hd := congrArg String.data h
  rw [parseErrorMsg_data] at hd
  have := congrArg List.head? hd
  simp [unmarshalMsg] at this

/-! ## Failing paths before the parser -/

theorem logCalls_append (xs ys : List Event) :
    logCalls (xs ++ ys) = logCalls xs ++ logCalls ys := by
  simp [logCalls]

theorem fatal_logged {Dest : Type} (before : List Event) (msg : String)
    (args : List (Option GoError)) (dest : Dest) (h : logCalls before = []) :
    LoggedThenRaised (fatal before msg args dest) msg := by
  refine ⟨before, args, rfl, h, ?_⟩
  show logCalls (before ++ [Event.logError "config.init" msg args]) = _
  rw [logCalls_append, h]
  rfl

theorem unmarshalFailure_logged {Dest : Type} (before : List Event) (content : Bytes)
    (err : GoError) (dest : Dest) (h : logCalls before = []) (msg : String)
    (hm : (unmarshalFailure before content err dest).outcome = Outcome.panicked msg) :
    LoggedThenRaised (unmarshalFailure before content err dest) msg := by
  unfold unmarshalFailure at hm ⊢
  split at hm
  · split at hm
    · cases hm
      exact fatal_logged _ _ _ _ (by rw [logCalls_append, h]; rfl)
    · cases hm
      exact fatal_logged _ _ _ _ h
  · cases hm
    exact fatal_logged _ _ _ _ h

/-- The run on the empty path. -/
theorem LoadDirect_empty {Dest : Type} (w : World Dest) (dest : Dest) :
    LoadDirect w "" dest = fatal [] "-config is required" [] dest := by
  unfold LoadDirect
  rw [if_pos rfl]

/-- C3: with the empty path `LoadDirect` panics with "-config is required"
after logging it, and that logging call is the only event of the run: no path
resolution, stat, open, read or parse is attempted, whatever the destination
and the filesystem. -/
theorem C3_empty_path_fails_before_io {Dest : Type} (w : World Dest) (dest : Dest) :
    (LoadDirect w "" dest).outcome = Outcome.panicked "-config is required" ∧
      (LoadDirect w "" dest).events =
        [Event.logError "config.init" "-config is required" []] ∧
      (∀ e ∈ (LoadDirect w "" dest).events, e.isIO = false) ∧
      (LoadDirect w "" dest).dest = dest := by
  rw [LoadDirect_empty]
  refine ⟨rfl, rfl, ?_, rfl⟩
  intro e he
  simp only [fatal, List.nil_append, List.mem_singleton] at he
  subst he
  rfl

/-- C4: a non-empty path that resolves and whose stat reports a directory ends
in the stat/directory failure, payload "-config value '<resolved path>' does
not stat or is a directory"; the run consists of the path resolution, the stat
and the logging call, so the path is never opened, read or parsed and the
destination is left as it was. -/
theorem C4_directory_fails_at_stat {Dest : Type} (w : World Dest) (path resolved : String)
    (dest : Dest) (info : FileInfo) (hp : path ≠ "") (habs : w.abs path = (resolved, none))
    (hstat : (w.stat resolved).1 = some info) (hdir : info.isDir = true) :
    (LoadDirect w path dest).outcome =
        Outcome.panicked ("-config value '" ++ resolved ++ "' does not stat or is a directory") ∧
      (LoadDirect w path dest).events =
        [Event.absCall path, Event.statCall resolved,
          Event.logError "config.init"
            ("-config value '" ++ resolved ++ "' does not stat or is a directory")
            [(w.stat resolved).2]] ∧
      (∀ e ∈ (LoadDirect w path dest).events, e.usesContent = false) ∧
      (LoadDirect w path dest).dest = dest := by
  have hrej : statRejects w (w.stat resolved) = true := by
    simp [statRejects, hstat, hdir]
  have h : LoadDirect w path dest =
      fatal [Event.absCall path, Event.statCall resolved]
        ("-config value '" ++ resolved ++ "' does not stat or is a directory")
        [(w.stat resolved).2] dest := by
    unfold LoadDirect
    rw [if_neg hp]
    simp only [habs, hrej]
    rfl
  rw [h]
  refine ⟨rfl, rfl, ?_, rfl⟩
  intro e he
  simp only [fatal, List.cons_append, List.nil_append, List.mem_cons, List.mem_singleton,
    List.not_mem_nil, or_false] at he
  rcases he with he | he | he <;> subst he <;> rfl

theorem C4_directory_fails_at_stat_witness :
    (LoadDirect (statWorld (some ⟨true⟩, none)) "/etc" ()).outcome =
        Outcome.panicked "-config value '/etc' does not stat or is a directory" ∧
      (LoadDirect (statWorld (some ⟨true⟩, none)) "/etc" ()).events =
        [Event.absCall "/etc", Event.statCall "/etc",
          Event.logError "config.init"
            "-config value '/etc' does not stat or is a directory" [none]] :=
  have h := C4_directory_fails_at_stat (statWorld (some ⟨true⟩, none)) "/etc" "/etc" ()
    ⟨true⟩ (by decide) rfl rfl rfl
  ⟨h.1, h.2.1⟩

/-- C5: a non-empty path that resolves to a nonexistent file (stat returns no
file information and a does-not-exist error, open fails) passes the stat check
and ends in the file-open failure, payload "failure opening -config file
'<resolved path>'", logged with the error of open; it does not end in the
stat/directory failure. -/
theorem C5_nonexistent_fails_at_open {Dest : Type} (w : World Dest) (path resolved : String)
    (dest : Dest) (e e2 : GoError) (file : Option File) (hp : path ≠ "")
    (habs : w.abs path = (resolved, none)) (hstat : w.stat resolved = (none, some e))
    (hne : w.isNotExist e = true) (hopen : w.openFile resolved = (file, some e2)) :
    statRejects w (w.stat resolved) = false ∧
      (LoadDirect w path dest).outcome =
        Outcome.panicked ("failure opening -config file '" ++ resolved ++ "'") ∧
      (LoadDirect w path dest).events =
        [Event.absCall path, Event.statCall resolved, Event.openCall resolved,
          Event.logError "config.init"
            ("failure opening -config file '" ++ resolved ++ "'") [some e2]] ∧
      (LoadDirect w path dest).outcome ≠
        Outcome.panicked ("-config value '" ++ resolved ++ "' does not stat or is a directory") := by
  have hrej : statRejects w (w.stat resolved) = false := by
    simp [statRejects, hstat, hne]
  have h : LoadDirect w path dest =
      fatal [Event.absCall path, Event.statCall resolved, Event.openCall resolved]
        ("failure opening -config file '" ++ resolved ++ "'") [some e2] dest := by
    unfold LoadDirect
    rw [if_neg hp]
    simp only [habs, hrej, hopen]
    rfl
  rw [h]
  refine ⟨hrej, rfl, rfl, ?_⟩
  intro hc
  have hd := congrArg String.data (Outcome.panicked.inj hc)
  have := congrArg List.head? hd
  simp [String.data_append] at this

theorem C5_nonexistent_fails_at_open_witness :
    (LoadDirect (statWorld (none, some (GoError.other "no such file or directory")))
        "/nowhere.json" ()).outcome =
      Outcome.panicked "failure opening -config file '/nowhere.json'" :=
  (C5_nonexistent_fails_at_open
    (statWorld (none, some (GoError.other "no such file or directory")))
    "/nowhere.json" "/nowhere.json" () (GoError.other "no such file or directory")
    (GoError.other "no such file or directory") none (by decide) rfl rfl (by decide) rfl).2.1

/-! ## Logging discipline -/

/-- C6: whenever `LoadDirect` ends in `panic(msg)`, the events of the run end
with one `log.Error` call with tag "config.init" and message `msg` (so it
precedes the panic), and that call is the only logging call of the run: no
other `Error` call and no `Status` call. -/
theorem C6_failure_logged_once {Dest : Type} (w : World Dest) (path : String) (dest : Dest)
    (msg : String) (h : (LoadDirect w path dest).outcome = Outcome.panicked msg) :
    ∃ before args,
      (LoadDirect w path dest).events =
        before ++ [Event.logError "config.init" msg args] ∧
      logCalls before = [] ∧
      logCalls (LoadDirect w path dest).events =
        [Event.logError "config.init" msg args] := by
  show LoggedThenRaised (LoadDirect w path dest) msg
  revert h
  unfold LoadDirect
  split
  · intro h; cases h
    exact fatal_logged _ _ _ _ rfl
  · simp only
    split
    · intro h; cases h
      exact fatal_logged _ _ _ _ rfl
    · split
      · intro h; cases h
        exact fatal_logged _ _ _ _ rfl
      · split
        · intro h; cases h
          exact fatal_logged _ _ _ _ rfl
        · split
          · intro h; cases h
            exact fatal_logged _ _ _ _ rfl
          · split
            · intro h
              refine unmarshalFailure_logged _ _ _ _ ?_ _ h
              rfl
            · intro h; cases h

theorem C6_failure_logged_once_witness :
    ∃ before args,
      (LoadDirect (fileWorld twoLines (some (GoError.jsonSyntax 2))) "c.json" ()).events =
        before ++
          [Event.logError "config.init" "JSON parse error at line 1, column 2" args] ∧
      logCalls before = [] ∧
      logCalls (LoadDirect (fileWorld twoLines (some (GoError.jsonSyntax 2))) "c.json"
          ()).events =
        [Event.logError "config.init" "JSON parse error at line 1, column 2" args] :=
  C6_failure_logged_once (fileWorld twoLines (some (GoError.jsonSyntax 2))) "c.json" ()
    "JSON parse error at line 1, column 2" (by decide)

/-! ## Normal return -/

/-- The condition of line 46 is false exactly when the stat reports neither a
directory nor an error other than does-not-exist. -/
theorem statRejects_eq_false_iff {Dest : Type} (w : World Dest)
    (st : Option FileInfo × Option GoError) :
    statRejects w st = false ↔ ¬ StatsAsDirectory st ∧ ¬ StatsWithOtherError w st := by
  obtain ⟨info, err⟩ := st
  cases info <;> cases err <;>
    simp [statRejects, StatsAsDirectory, StatsWithOtherError, and_comm]

/-- Either the run returns, under the conditions of the specification and with
the status entry as its only logging call, or it does not return and one of the
conditions fails. -/
theorem LoadDirect_returns_or_not {Dest : Type} (w : World Dest) (path : String)
    (dest : Dest) :
    ((LoadDirect w path dest).outcome = Outcome.returned ∧ LoadSucceeds w path dest ∧
        logCalls (LoadDirect w path dest).events =
          [Event.logStatus "config.init"
            ("Config loaded from '" ++ (w.abs path).1 ++ "'.")]) ∨
      ((LoadDirect w path dest).outcome ≠ Outcome.returned ∧
        ¬ LoadSucceeds w path dest) := by
  by_cases hp : path = ""
  · right
    subst hp
    refine ⟨?_, fun h => h.1 rfl⟩
    rw [LoadDirect_empty]
    simp [fatal]
  rcases habs : w.abs path with ⟨resolved, aerr⟩
  cases aerr with
  | some e =>
    right
    refine ⟨?_, fun h => by simpa [habs] using h.2.1⟩
    unfold LoadDirect
    rw [if_neg hp]
    simp [habs, fatal]
  | none =>
  cases hrej : statRejects w (w.stat resolved) with
  | true =>
    right
    refine ⟨?_, fun h => ?_⟩
    · unfold LoadDirect
      rw [if_neg hp]
      simp [habs, hrej, fatal]
    · have h1 := (statRejects_eq_false_iff w (w.stat resolved)).mpr
        (by simpa [habs] using And.intro h.2.2.1 h.2.2.2.1)
      rw [hrej] at h1
      cases h1
  | false =>
  have hst := (statRejects_eq_false_iff w (w.stat resolved)).mp hrej
  rcases hopen : w.openFile resolved with ⟨file, oerr⟩
  cases oerr with
  | some e =>
    right
    refine ⟨?_, fun h => by simpa [habs, hopen] using h.2.2.2.2.1⟩
    unfold LoadDirect
    rw [if_neg hp]
    simp [habs, hrej, hopen, fatal]
  | none =>
  rcases hread : w.readAll file with ⟨content, rerr⟩
  cases rerr with
  | some e =>
    right
    refine ⟨?_, fun h => by simpa [habs, hopen, hread] using h.2.2.2.2.2.1⟩
    unfold LoadDirect
    rw [if_neg hp]
    simp [habs, hrej, hopen, hread, fatal]
  | none =>
  have hrc : ReadsContent w path resolved file content := ⟨hp, habs, hrej, hopen, hread⟩
  rw [LoadDirect_of_readsContent w path resolved file content dest hrc]
  rcases hum : w.unmarshal content dest with ⟨dest1, uerr⟩
  cases uerr with
  | some e =>
    right
    refine ⟨?_, fun h => by simpa [habs, hopen, hread, hum] using h.2.2.2.2.2.2⟩
    simp only
    unfold unmarshalFailure
    split
    · split <;> simp [fatal]
    · simp [fatal]
  | none =>
    left
    refine ⟨rfl, ?_, ?_⟩
    · refine ⟨hp, ?_, ?_, ?_, ?_, ?_, ?_⟩ <;> simp [habs, hopen, hread, hum, hst]
    · simp [habs, logCalls, readEvents]

/-- C7: `LoadDirect` returns normally if and only if the path is non-empty,
resolves, does not stat as a directory or with an error other than
does-not-exist, opens, is read in full without error, and its content
unmarshals into the destination without error; and when it returns, the only
logging call of the run is `Status` with tag "config.init" and message
"Config loaded from '<resolved path>'." (so no `Error` call). -/
theorem C7_returns_iff_all_steps_succeed {Dest : Type} (w : World Dest) (path : String)
    (dest : Dest) :
    ((LoadDirect w path dest).outcome = Outcome.returned ↔ LoadSucceeds w path dest) ∧
      ((LoadDirect w path dest).outcome = Outcome.returned →
        logCalls (LoadDirect w path dest).events =
          [Event.logStatus "config.init"
            ("Config loaded from '" ++ (w.abs path).1 ++ "'.")]) := by
  rcases LoadDirect_returns_or_not w path dest with ⟨h1, h2, h3⟩ | ⟨h1, h2⟩
  · exact ⟨⟨fun _ => h2, fun _ => h1⟩, fun _ => h3⟩
  · exact ⟨⟨fun h => absurd h h1, fun h => absurd h h2⟩, fun h => absurd h h1⟩

theorem C7_returns_iff_all_steps_succeed_witness :
    LoadSucceeds (fileWorld portContent none) "c.json" () ∧
      logCalls (LoadDirect (fileWorld portContent none) "c.json" ()).events =
        [Event.logStatus "config.init" "Config loaded from 'c.json'."] :=
  have h := C7_returns_iff_all_steps_succeed (fileWorld portContent none) "c.json" ()
  ⟨h.1.mp (by decide), h.2 (by decide)⟩

/-! ## Unmarshal failures -/

/-- The run after a JSON syntax error at `offset`, by the result of the line
search. -/
theorem LoadDirect_parse_failure {Dest : Type} (w : World Dest) (path resolved : String)
    (file : Option File) (content : Bytes) (dest dest1 : Dest) (o : Int)
    (hread : ReadsContent w path resolved file content)
    (hum : w.unmarshal content dest = (dest1, some (GoError.jsonSyntax o))) :
    LoadDirect w path dest =
      match lineSearch o (splitLines content) 0 0 with
      | some hit =>
        fatal (readEvents path resolved file content ++ [Event.println hit.line])
          (parseErrorMsg ((hit.index : Int) + 1) (o - hit.seen)) [] dest1
      | none =>
        fatal (readEvents path resolved file content) unmarshalMsg
          [some (GoError.jsonSyntax o)] dest1 := by
  rw [LoadDirect_of_readsContent w path resolved file content dest hread, hum]
  rfl

/-- C8: when the content is read and `json.Unmarshal` fails with an error that
is not a JSON syntax error, `LoadDirect` panics with the generic payload
"loading config failed on unmarshal ", its last event is the `log.Error` call
with that message and the unmarshal error as its argument, no source line is
printed, and the payload is not a "JSON parse error at line L, column C"
message for any `L`, `C`. -/
theorem C8_other_unmarshal_error_is_generic {Dest : Type} (w : World Dest)
    (path resolved : String) (file : Option File) (content : Bytes) (dest dest1 : Dest)
    (e : GoError) (hread : ReadsContent w path resolved file content)
    (hum : w.unmarshal content dest = (dest1, some e))
    (hne : ∀ o, e ≠ GoError.jsonSyntax o) :
    (LoadDirect w path dest).outcome =
        Outcome.panicked "loading config failed on unmarshal " ∧
      (LoadDirect w path dest).events =
        readEvents path resolved file content ++
          [Event.logError "config.init" "loading config failed on unmarshal " [some e]] ∧
      (∀ line, Event.println line ∉ (LoadDirect w path dest).events) ∧
      (∀ L C, (LoadDirect w path dest).outcome ≠ Outcome.panicked (parseErrorMsg L C)) := by
  have h : LoadDirect w path dest =
      fatal (readEvents path resolved file content) unmarshalMsg [some e] dest1 := by
    rw [LoadDirect_of_readsContent w path resolved file content dest hread, hum]
    cases e with
    | jsonSyntax o => exact absurd rfl (hne o)
    | other t => rfl
  rw [h]
  refine ⟨rfl, rfl, ?_, ?_⟩
  · intro line hmem
    simp [fatal, readEvents] at hmem
  · intro L C hc
    exact parseErrorMsg_ne_unmarshalMsg L C (Outcome.panicked.inj hc).symm

theorem C8_other_unmarshal_error_is_generic_witness :
    (LoadDirect (fileWorld portContent (some (GoError.other "cannot unmarshal")))
        "c.json" ()).events =
      readEvents "c.json" "c.json" (some 3) portContent ++
        [Event.logError "config.init" "loading config failed on unmarshal "
          [some (GoError.other "cannot unmarshal")]] :=
  (C8_other_unmarshal_error_is_generic
    (fileWorld portContent (some (GoError.other "cannot unmarshal"))) "c.json" "c.json"
    (some 3) portContent () () (GoError.other "cannot unmarshal")
    (readsContent_fileWorld _ _) rfl (fun _ h => GoError.noConfusion h)).2.1

/-! ## Line and column of a JSON syntax error -/

/-- C1 as stated fails: in the content `"a`, newline, `b"` (a string literal
with a raw newline, which the parser rejects after reading 3 bytes) the offset
3 lies on the second line, one newline byte coming before position 3, yet
`LoadDirect` reports "JSON parse error at line 1, column 3", and it reports no
parse error at line 2 whatever the column. -/
theorem C1_counterexample :
    (0 : Int) ≤ 3 ∧ (3 : Int) < (quotedTwoLines.length : Int) ∧
      1 + newlinesBefore quotedTwoLines 3 = 2 ∧
      (LoadDirect (fileWorld quotedTwoLines (some (GoError.jsonSyntax 3))) "c.json"
          ()).outcome =
        Outcome.panicked "JSON parse error at line 1, column 3" ∧
      ¬ ∃ C : Int,
        (LoadDirect (fileWorld quotedTwoLines (some (GoError.jsonSyntax 3))) "c.json"
            ()).outcome =
          Outcome.panicked
            (parseErrorMsg ((1 + newlinesBefore quotedTwoLines 3 : Nat) : Int) C) := by
  refine ⟨by decide, by decide, by decide, by decide, ?_⟩
  rintro ⟨C, hC⟩
  have h1 : (LoadDirect (fileWorld quotedTwoLines (some (GoError.jsonSyntax 3))) "c.json"
      ()).outcome = Outcome.panicked (parseErrorMsg 1 3) := by decide
  rw [h1] at hC
  have h2 := (parseErrorMsg_injective _ _ _ _ (Outcome.panicked.inj hC)).1
  revert h2
  decide

/-- C1, amended: for a JSON syntax error at offset `o` with `0 ≤ o` and
`o` less than the length of the content, `LoadDirect` panics with "JSON parse
error at line L, column C" where `L` is 1 + the number of newline bytes of the
content strictly before position `o - 1`, and no other line number is
reported. -/
theorem C1_line_number_of_offset {Dest : Type} (w : World Dest) (path resolved : String)
    (file : Option File) (content : Bytes) (dest dest1 : Dest) (o : Int)
    (hread : ReadsContent w path resolved file content)
    (hum : w.unmarshal content dest = (dest1, some (GoError.jsonSyntax o)))
    (_h0 : 0 ≤ o) (hlt : o < (content.length : Int)) :
    (∃ C : Int, (LoadDirect w path dest).outcome =
        Outcome.panicked
          (parseErrorMsg ((1 + newlinesBefore content (o - 1) : Nat) : Int) C)) ∧
      ∀ L C : Int, (LoadDirect w path dest).outcome = Outcome.panicked (parseErrorMsg L C) →
        L = ((1 + newlinesBefore content (o - 1) : Nat) : Int) := by
  obtain ⟨hit, hs, hidx⟩ := lineSearch_splitLines content o (by omega)
  have h : (LoadDirect w path dest).outcome =
      Outcome.panicked
        (parseErrorMsg ((1 + newlinesBefore content (o - 1) : Nat) : Int) (o - hit.seen)) := by
    rw [LoadDirect_parse_failure w path resolved file content dest dest1 o hread hum, hs,
      ← hidx]
    simp only [fatal, Nat.cast_add, Nat.cast_one]
    rw [add_comm]
  refine ⟨⟨_, h⟩, ?_⟩
  intro L C hLC
  rw [h] at hLC
  exact ((parseErrorMsg_injective _ _ _ _ (Outcome.panicked.inj hLC)).1).symm

theorem C1_line_number_of_offset_witness :
    ∃ C : Int,
      (LoadDirect (fileWorld quotedTwoLines (some (GoError.jsonSyntax 3))) "c.json"
          ()).outcome =
        Outcome.panicked
          (parseErrorMsg ((1 + newlinesBefore quotedTwoLines (3 - 1) : Nat) : Int) C) :=
  (C1_line_number_of_offset (fileWorld quotedTwoLines (some (GoError.jsonSyntax 3)))
    "c.json" "c.json" (some 3) quotedTwoLines () () 3 (readsContent_fileWorld _ _) rfl
    (by decide) (by decide)).1

/-- C2: whenever `LoadDirect`, after a JSON syntax error at offset `o`, panics
with "JSON parse error at line L, column C", then `L ≥ 1` and `C` is `o` minus
the sum, over the `L - 1` lines before the reported one, of (length of the
line + 1). -/
theorem C2_column_of_offset {Dest : Type} (w : World Dest) (path resolved : String)
    (file : Option File) (content : Bytes) (dest dest1 : Dest) (o L C : Int)
    (hread : ReadsContent w path resolved file content)
    (hum : w.unmarshal content dest = (dest1, some (GoError.jsonSyntax o)))
    (hrep : (LoadDirect w path dest).outcome = Outcome.panicked (parseErrorMsg L C)) :
    1 ≤ L ∧ C = o - precedingLength (splitLines content) (L - 1).toNat := by
  rw [LoadDirect_parse_failure w path resolved file content dest dest1 o hread hum] at hrep
  cases hs : lineSearch o (splitLines content) 0 0 with
  | none =>
    rw [hs] at hrep
    exact absurd (Outcome.panicked.inj hrep).symm (parseErrorMsg_ne_unmarshalMsg L C)
  | some hit =>
    rw [hs] at hrep
    obtain ⟨hL, hC⟩ := parseErrorMsg_injective _ _ _ _ (Outcome.panicked.inj hrep)
    obtain ⟨k, -, hidx, -, hseen, -⟩ := lineSearch_some o _ _ _ _ hs
    have hk : (L - 1).toNat = k := by omega
    refine ⟨by omega, ?_⟩
    rw [hk, ← hC, hseen]
    ring

theorem C2_column_of_offset_witness :
    (LoadDirect (fileWorld portContent (some (GoError.jsonSyntax 9))) "c.json" ()).outcome =
        Outcome.panicked "JSON parse error at line 1, column 9" ∧
      (1 : Int) ≤ 1 ∧
      (9 : Int) = 9 - precedingLength (splitLines portContent) ((1 : Int) - 1).toNat :=
  ⟨by decide,
    C2_column_of_offset (fileWorld portContent (some (GoError.jsonSyntax 9))) "c.json"
      "c.json" (some 3) portContent () () 9 1 9 (readsContent_fileWorld _ _) rfl (by decide)⟩

/-- C10: for a JSON syntax error at an offset `o` of at most the length of the
content plus one, the line search selects a line: `LoadDirect` panics with
"JSON parse error at line L, column C" for an `L` between 1 and the number of
lines of the content, the run ends by printing the `L`-th line and logging that
message, and the payload is not the generic "loading config failed on
unmarshal ". -/
theorem C10_line_search_always_selects {Dest : Type} (w : World Dest)
    (path resolved : String) (file : Option File) (content : Bytes) (dest dest1 : Dest)
    (o : Int) (hread : ReadsContent w path resolved file content)
    (hum : w.unmarshal content dest = (dest1, some (GoError.jsonSyntax o)))
    (hle : o ≤ (content.length : Int) + 1) :
    ∃ (L : Nat) (C : Int) (line : Bytes),
      1 ≤ L ∧ L ≤ (splitLines content).length ∧
      (splitLines content)[L - 1]? = some line ∧
      (LoadDirect w path dest).outcome = Outcome.panicked (parseErrorMsg (L : Int) C) ∧
      (LoadDirect w path dest).events =
        readEvents path resolved file content ++
          [Event.println line,
            Event.logError "config.init" (parseErrorMsg (L : Int) C) []] ∧
      (LoadDirect w path dest).outcome ≠
        Outcome.panicked "loading config failed on unmarshal " := by
  obtain ⟨hit, hs, -⟩ := lineSearch_splitLines content o hle
  obtain ⟨k, hk, hidx, hget, -, -⟩ := lineSearch_some o _ _ _ _ hs
  rw [LoadDirect_parse_failure w path resolved file content dest dest1 o hread hum, hs]
  refine ⟨hit.index + 1, o - hit.seen, hit.line, by omega, by omega, ?_, ?_, ?_, ?_⟩
  · rw [Nat.add_sub_cancel, hidx, Nat.zero_add]
    exact hget
  · simp [fatal]
  · simp [fatal]
  · intro hc
    exact parseErrorMsg_ne_unmarshalMsg _ _ (Outcome.panicked.inj hc)

theorem C10_line_search_always_selects_witness :
    ∃ (L : Nat) (C : Int) (line : Bytes),
      1 ≤ L ∧ L ≤ (splitLines twoLines).length ∧
      (splitLines twoLines)[L - 1]? = some line ∧
      (LoadDirect (fileWorld twoLines (some (GoError.jsonSyntax 4))) "c.json" ()).outcome =
        Outcome.panicked (parseErrorMsg (L : Int) C) ∧
      (LoadDirect (fileWorld twoLines (some (GoError.jsonSyntax 4))) "c.json" ()).events =
        readEvents "c.json" "c.json" (some 3) twoLines ++
          [Event.println line,
            Event.logError "config.init" (parseErrorMsg (L : Int) C) []] ∧
      (LoadDirect (fileWorld twoLines (some (GoError.jsonSyntax 4))) "c.json" ()).outcome ≠
        Outcome.panicked "loading config failed on unmarshal " :=
  C10_line_search_always_selects (fileWorld twoLines (some (GoError.jsonSyntax 4))) "c.json"
    "c.json" (some 3) twoLines () () 4 (readsContent_fileWorld _ _) rfl (by decide)

/-! ## The destination -/

/-- When the content is read, the destination a run leaves behind is the one
`json.Unmarshal` produced from the content and the destination passed in:
`LoadDirect` itself writes no field. -/
theorem LoadDirect_dest_of_readsContent {Dest : Type} (w : World Dest)
    (path resolved : String) (file : Option File) (content : Bytes) (dest : Dest)
    (hread : ReadsContent w path resolved file content) :
    (LoadDirect w path dest).dest = (w.unmarshal content dest).1 := by
  rw [LoadDirect_of_readsContent w path resolved file content dest hread]
  rcases hum : w.unmarshal content dest with ⟨dest1, uerr⟩
  cases uerr with
  | none => rfl
  | some e =>
    simp only
    unfold unmarshalFailure
    split
    · split <;> rfl
    · rfl

end Config
